import Mathlib

/-!
Shallow embedding of src/edalize/modelsim.py (the ModelSim backend of
edalize) and proofs about the claims of its specification.

The embedding keeps the source's names where Lean allows it:
`write_build_rtl` models `Modelsim._write_build_rtl_tcl_file`,
`write_makefile` models `Modelsim._write_makefile`,
`run_main` models `Modelsim.run_main`.

Data that the source obtains from the `Edatool` base class (which is not
part of this repository) enters the embedding as plain inputs: the
resolved file list and include directories (`_get_fileset_files`), the
parameter dictionaries (with their values already rendered to strings by
the external `_param_value_str` collaborator), the tool options and the
VPI module descriptors.

Each `write` call to a generated script is modelled as one element of a
list: `TclLine` values for `edalize_build_rtl.tcl` (rendered to the
written text by `renderLine`), plain strings for the `do` lines of
`edalize_main.tcl`, and the `Makefile` is modelled directly as the
concatenated string.  A warning logged by `logger.warning` is modelled
as the pair (file name, file type) that the format string interpolates.
-/

namespace EdalizeModelsim

/-- Character-level list prefix test (used to model Python's
`str.startswith` / `str.endswith` structurally). -/
def chPre : List Char → List Char → Bool
  | [], _ => true
  | _ :: _, [] => false
  | a :: as, b :: bs => a == b && chPre as bs

/-- Python `s.startswith(p)`. -/
def strStarts (s p : String) : Bool := chPre p.data s.data

/-- Python `s.endswith(p)`: a suffix is a reversed-order prefix. -/
def strEnds (s p : String) : Bool := chPre p.data.reverse s.data.reverse

/-- Python `s.replace(BACKSLASH, "/")`: single-character replacement is a
character map. -/
def slashify (s : String) : String :=
  String.mk (s.data.map (fun c => if c == '\\' then '/' else c))

/-- Python `" ".join(xs)`. -/
def joinSp : List String → String
  | [] => ""
  | [a] => a
  | a :: rest => a ++ " " ++ joinSp rest

/-- Concatenation of a sequence of chunks written to one file. -/
def strConcat : List String → String
  | [] => ""
  | s :: rest => s ++ strConcat rest

/-- Python `"k=v"` rendering of one parameter entry (the value string is
the output of the external stringification collaborator). -/
def kvStr (kv : String × String) : String := kv.1 ++ "=" ++ kv.2

/-- A source file record as produced by the external file-set resolver
(`modelsim.py` reads fields `name`, `file_type`, `logical_name`).  A
`logical_name` of `""` models an unset/empty logical name (Python
`not f.logical_name`). -/
structure SourceFile where
  name : String
  file_type : String
  logical_name : String
deriving DecidableEq

/-- The recognized tool options (`modelsim.py` lines 117, 131, 150, 167,
199); a list option that is absent is the empty list
(`tool_options.get(key, [])`), an absent `compilation_mode` is `""`. -/
structure ToolOptions where
  compilation_mode : String
  vcom_options : List String
  vlog_options : List String
  vsim_options : List String
deriving DecidableEq

/-- A VPI module descriptor (`modelsim.py` lines 213-217). -/
structure VpiModule where
  name : String
  src_files : List String
  libs : List String
  include_dirs : List String
deriving DecidableEq

/-- Line 120: `f.logical_name = "work"` when the supplied name is falsy;
this is an in-place mutation of the record. -/
def applyDefault (f : SourceFile) : SourceFile :=
  if f.logical_name = "" then { f with logical_name := "work" } else f

/-- The effective library name of a file (the value `f.logical_name`
holds from line 120 on). -/
def effName (l : String) : String := if l = "" then "work" else l

/-- Lines 121-123: the `libs` list grows by a name exactly when the name
is not yet present. -/
def libsStep (libs : List String) (n : String) : List String :=
  if n ∈ libs then libs else libs ++ [n]

/-- Lines 133-134: `+define+K=V` flags from the vlogdefine dictionary. -/
def defineFlags (vlogdefine : List (String × String)) : List String :=
  vlogdefine.map (fun kv => "+define+" ++ kv.1 ++ "=" ++ kv.2)

/-- Line 111: `+incdir+<dir>` flags with backslashes replaced. -/
def incFlags (incdirs : List String) : List String :=
  incdirs.map (fun d => "+incdir+" ++ slashify d)

/-- Lines 124-126: a file compiled with `vlog`. -/
def isVlogT (ft : String) : Bool :=
  strStarts ft "verilogSource" || strStarts ft "systemVerilogSource"

/-- Line 136: a SystemVerilog file. -/
def isSvT (ft : String) : Bool := strStarts ft "systemVerilogSource"

/-- Line 139: a file compiled with `vcom`. -/
def isVhdlT (ft : String) : Bool := strStarts ft "vhdlSource"

/-- Lines 141-148 of the source, kept with its exact control flow: three
successive `if` statements where only the last one carries an `else`.
The assignments for the `-87` and `-93` suffixes are dead stores: the
final `if`/`else` keyed on `-2008` unconditionally reassigns `args`. -/
def vcomRevisionArgs (ft : String) : List String :=
  let _args87 : List String := if strEnds ft "-87" then ["-87"] else []
  let _args93 : List String := if strEnds ft "-93" then ["-93"] else _args87
  if strEnds ft "-2008" then ["-2008"] else []

/-- Lines 124-160: the compiler command and its option list chosen for a
file type, `none` when no compile command is issued (tclSource, user,
unknown).  Argument order follows the source: for `vlog` the user
options, then the define flags, then `-sv`, then the include flags; for
`vcom` the revision args then the user options. -/
def dispatchCmd (vopts copts defs incs : List String) (ft : String) :
    Option (String × List String) :=
  if isVlogT ft then
    some ("vlog",
      vopts ++ defs ++ (if isSvT ft then ["-sv"] else []) ++ incs)
  else if isVhdlT ft then
    some ("vcom", vcomRevisionArgs ft ++ copts)
  else none

/-- One line of `edalize_build_rtl.tcl`.  A per-file compile line keeps
the fixed tail that lines 162-164 append (`-quiet -work <lib> <path>`)
in dedicated fields; `renderLine` recovers the written text. -/
inductive TclLine where
  | vlib (name : String)
  | compile (cmd : String) (args : List String) (work : String) (path : String)
  | commonVlog (args : List String) (files : List String)
deriving DecidableEq

/-- The text each `TclLine` stands for: line 122 `"vlib {name}"`, line
165 `"{cmd} {joined args}"` with the `-quiet -work <lib> <path>` tail of
lines 162-164, line 184 the aggregate f-string. -/
def renderLine : TclLine → String
  | TclLine.vlib n => "vlib " ++ n
  | TclLine.compile c a w p => c ++ " " ++ joinSp (a ++ ["-quiet", "-work", w, p])
  | TclLine.commonVlog a fs => "vlog " ++ joinSp a ++ " " ++ joinSp fs

/-- Lines 161-165: the per-file compile line, suppressed for `vlog` in
common-compilation mode.  `f` is the (already defaulted) file record. -/
def compileEmit (common : Bool) (vopts copts defs incs : List String)
    (f : SourceFile) : List TclLine :=
  match dispatchCmd vopts copts defs incs f.file_type with
  | none => []
  | some (cmd, args) =>
      if cmd != "vlog" || !common then
        [TclLine.compile cmd args f.logical_name (slashify f.name)]
      else []

/-- Lines 118-165 for a single file: the `vlib` line (when the library is
new) followed by the optional compile line. -/
def emitFile (common : Bool) (vopts copts defs incs : List String)
    (libs : List String) (f0 : SourceFile) : List TclLine :=
  let f := applyDefault f0
  (if f.logical_name ∈ libs then [] else [TclLine.vlib f.logical_name]) ++
    compileEmit common vopts copts defs incs f

/-- Line 154: the `do <file>` line a tclSource file adds to
`edalize_main.tcl`. -/
def mainOf (f : SourceFile) : Option String :=
  if f.file_type = "tclSource" then some ("do " ++ f.name) else none

/-- Lines 157-159: the warning (file name, file type) logged for an
unrecognized file type; recognized and `user` types log nothing. -/
def warnOf (f : SourceFile) : Option (String × String) :=
  if isVlogT f.file_type || isVhdlT f.file_type ||
      f.file_type = "tclSource" || f.file_type = "user" then none
  else some (f.name, f.file_type)

/-- The mutable state threaded through the loop of lines 118-165 plus
the accumulated outputs: declared libraries, collected vlog files, the
build-script lines, the `do` lines added to `edalize_main.tcl`, the
logged warnings, and the (possibly mutated) file records. -/
structure RtlState where
  libs : List String
  vlog_files : List SourceFile
  script : List TclLine
  tcl_main : List String
  warnings : List (String × String)
  files_out : List SourceFile
deriving DecidableEq

/-- One iteration of the `for f in src_files` loop (lines 118-165). -/
def processFile (common : Bool) (vopts copts defs incs : List String)
    (st : RtlState) (f0 : SourceFile) : RtlState :=
  let f := applyDefault f0
  { libs := libsStep st.libs f.logical_name,
    vlog_files := st.vlog_files ++ (if isVlogT f.file_type then [f] else []),
    script := st.script ++ emitFile common vopts copts defs incs st.libs f0,
    tcl_main := st.tcl_main ++ (mainOf f).toList,
    warnings := st.warnings ++ (warnOf f).toList,
    files_out := st.files_out ++ [f] }

/-- Lines 166-183: the option list of the aggregate `vlog` command in
common-compilation mode. -/
def aggArgs (vopts defs incs : List String) (vlog_files : List SourceFile) :
    List String :=
  vopts ++ defs ++
    (if vlog_files.any (fun f => isSvT f.file_type) then ["-sv"] else []) ++
    incs ++ ["-quiet", "-work", "work", "-mfcu"]

/-- `_write_build_rtl_tcl_file` (lines 107-184): the loop over the file
list followed, in common-compilation mode, by the unconditional
aggregate `vlog` line. -/
def write_build_rtl (opts : ToolOptions) (vlogdefine : List (String × String))
    (src_files : List SourceFile) (incdirs : List String) : RtlState :=
  let common := opts.compilation_mode == "common"
  let defs := defineFlags vlogdefine
  let incs := incFlags incdirs
  let st := src_files.foldl
    (processFile common opts.vlog_options opts.vcom_options defs incs)
    ⟨[], [], [], [], [], []⟩
  if common then
    { st with script := st.script ++
        [TclLine.commonVlog (aggArgs opts.vlog_options defs incs st.vlog_files)
          (st.vlog_files.map (fun f => slashify f.name))] }
  else st

/-- The build-script lines produced by the loop alone, threading only the
set of declared libraries (the only state the emitted lines depend on). -/
def scriptOf (common : Bool) (vopts copts defs incs : List String) :
    List String → List SourceFile → List TclLine
  | _, [] => []
  | libs, f :: fs =>
      emitFile common vopts copts defs incs libs f ++
        scriptOf common vopts copts defs incs
          (libsStep libs (effName f.logical_name)) fs

/-- `run_main` (lines 237-247): the command handed to the external
process runner. -/
def run_main (plusarg : List (String × String)) : String × List String :=
  let args := ["run"]
  let args := if plusarg.isEmpty then args
    else args ++ ["PLUSARGS=" ++ joinSp (plusarg.map kvStr)]
  ("make", args)

/-- The two fixed lines `configure_main` writes to `edalize_main.tcl`
before the `do` lines collected from tclSource files (lines 229-231). -/
def edalize_main_tcl (doLines : List String) : List String :=
  ["onerror \x7b quit -code 1; \x7d", "do edalize_build_rtl.tcl"] ++ doLines


/-! ## Classifying the script lines -/

def isVlibL : TclLine → Bool
  | TclLine.vlib _ => true
  | _ => false

def isVlibFor (L : String) : TclLine → Bool
  | TclLine.vlib n => n == L
  | _ => false

def vlibName? : TclLine → Option String
  | TclLine.vlib n => some n
  | _ => none

def isCompileL : TclLine → Bool
  | TclLine.compile _ _ _ _ => true
  | _ => false

def isVlogLine : TclLine → Bool
  | TclLine.compile c _ _ _ => c == "vlog"
  | _ => false

def isVcomLine : TclLine → Bool
  | TclLine.compile c _ _ _ => c == "vcom"
  | _ => false

def isAggL : TclLine → Bool
  | TclLine.commonVlog _ _ => true
  | _ => false

/-- A line referencing library `L`: a per-file compile line targets its
`-work` library; the aggregate `vlog` line targets "work". -/
def refsWork (L : String) : TclLine → Bool
  | TclLine.compile _ _ w _ => w == L
  | TclLine.commonVlog _ _ => L == "work"
  | TclLine.vlib _ => false

def perCompile? : TclLine → Option (String × List String × String × String)
  | TclLine.compile c a w p => some (c, a, w, p)
  | _ => none

/-- The compile line the source emits for a file in separate-compilation
mode, as (command, options, work library, slash-normalized path). -/
def expectedCompile (vo co d i : List String) (f : SourceFile) :
    Option (String × List String × String × String) :=
  (dispatchCmd vo co d i f.file_type).map
    (fun ca => (ca.1, ca.2, effName f.logical_name, slashify f.name))

def initState : RtlState := ⟨[], [], [], [], [], []⟩

/-! ## The Makefile (`_write_makefile`, lines 186-226) -/

/-- The `MAKE_HEADER` template of lines 12-56, with the six placeholders
substituted (`.format` call of lines 203-210). -/
def MAKE_HEADER (toplevel modules parameters plusargs vsim_options clean_targets :
    String) : String :=
  "#Generated by Edalize\n" ++
  "ifndef MODEL_TECH\n" ++
  "$(error Environment variable MODEL_TECH was not found. It should be set to <modelsim install path>/bin)\n" ++
  "endif\n\n" ++
  "CC ?= gcc\n" ++
  "CFLAGS   := -fPIC -fno-stack-protector -g -std=c99\n" ++
  "CXXFLAGS := -fPIC -fno-stack-protector -g\n\n" ++
  "LD ?= ld\n" ++
  "LDFLAGS := -shared -E\n\n" ++
  "#Try to determine if ModelSim is 32- or 64-bit.\n" ++
  "#To manually override, set the environment MTI_VCO_MODE to 32 or 64\n" ++
  "ifeq ($(findstring 64, $(shell $(MODEL_TECH)/../vco)),)\n" ++
  "CFLAGS   += -m32\n" ++
  "CXXFLAGS += -m32\n" ++
  "LDFLAGS  += -melf_i386\n" ++
  "endif\n\n" ++
  "RM ?= rm\n" ++
  "INCS := -I$(MODEL_TECH)/../include\n\n" ++
  "VSIM ?= $(MODEL_TECH)/vsim\n\n" ++
  "TOPLEVEL      := " ++ toplevel ++ "\n" ++
  "VPI_MODULES   := " ++ modules ++ "\n" ++
  "PARAMETERS    ?= " ++ parameters ++ "\n" ++
  "PLUSARGS      ?= " ++ plusargs ++ "\n" ++
  "VSIM_OPTIONS  ?= " ++ vsim_options ++ "\n" ++
  "EXTRA_OPTIONS ?= $(VSIM_OPTIONS) $(addprefix -g,$(PARAMETERS)) $(addprefix +,$(PLUSARGS))\n\n" ++
  "all: work $(VPI_MODULES)\n\n" ++
  "run: work $(VPI_MODULES)\n" ++
  "\t$(VSIM) -c $(addprefix -pli ,$(VPI_MODULES)) $(EXTRA_OPTIONS) -do \"run -all; quit -code [expr [coverage attribute -name TESTSTATUS -concise] >= 2 ? [coverage attribute -name TESTSTATUS -concise] : 0]; exit\" $(TOPLEVEL)\n\n" ++
  "run-gui: work $(VPI_MODULES)\n" ++
  "\t$(VSIM) -gui $(addprefix -pli ,$(VPI_MODULES)) $(EXTRA_OPTIONS) $(TOPLEVEL)\n\n" ++
  "work:\n" ++
  "\t$(VSIM) -c -do \"do edalize_main.tcl; exit\"\n\n" ++
  "clean: " ++ clean_targets ++ "\n"

/-- The `VPI_MAKE_SECTION` template of lines 58-70 with its four
placeholders substituted (lines 218-223). -/
def VPI_MAKE_SECTION (name objs libs incs : String) : String :=
  "\n" ++ name ++ "_OBJS := " ++ objs ++ "\n" ++
  name ++ "_LIBS := " ++ libs ++ "\n" ++
  name ++ "_INCS := $(INCS) " ++ incs ++ "\n\n" ++
  "$(" ++ name ++ "_OBJS): CPPFLAGS := $(" ++ name ++ "_INCS)\n\n" ++
  name ++ ": $(" ++ name ++ "_OBJS)\n" ++
  "\t$(LD) $(LDFLAGS) -o $@ $? $(" ++ name ++ "_LIBS)\n\n" ++
  "clean_" ++ name ++ ":\n" ++
  "\t$(RM) $(" ++ name ++ "_OBJS) " ++ name ++ "\n"

/-- `os.path.splitext(s)[0]`: everything before the extension separator,
where the extension starts at the last dot of the basename and leading
dots of the basename do not start an extension. -/
def lastIdxOf (c : Char) (cs : List Char) : Option Nat :=
  cs.enum.foldl (fun acc ix => if ix.2 == c then some ix.1 else acc) none

def splitextStem (s : String) : String :=
  let cs := s.data
  let base := ((lastIdxOf '/' cs).map (fun k => k + 1)).getD 0
  match lastIdxOf '.' cs with
  | none => s
  | some dotIdx =>
      if base ≤ dotIdx ∧ ((cs.drop base).take (dotIdx - base)).any (fun c => c ≠ '.') then
        String.mk (cs.take dotIdx)
      else s

/-- Lines 213-224: the section generated for one VPI module. -/
def vpiSection (m : VpiModule) : String :=
  VPI_MAKE_SECTION m.name
    (joinSp (m.src_files.map (fun s => splitextStem s ++ ".o")))
    (joinSp (m.libs.map (fun l => "-l" ++ l)))
    (joinSp (m.include_dirs.map (fun d => "-I" ++ d)))

/-- `_write_makefile` (lines 186-226): the full Makefile text.  The
parameter dictionaries arrive with their values already stringified by
the external `_param_value_str` collaborator (`bool_is_str` for
generics). -/
def write_makefile (toplevel : String) (vlogparam generic plusarg : List (String × String))
    (vsim_options : List String) (vpi_modules : List VpiModule) : String :=
  let parms := vlogparam.map kvStr ++ generic.map kvStr
  let plus := plusarg.map kvStr
  let modules := vpi_modules.map (fun m => m.name)
  MAKE_HEADER toplevel (joinSp modules) (joinSp parms) (joinSp plus)
    (joinSp vsim_options) (joinSp (modules.map (fun m => "clean_" ++ m))) ++
  strConcat (vpi_modules.map vpiSection)

/-! ## Substring search (for "the Makefile contains ..." claims) -/

def subAt : List Char → List Char → Bool
  | [], _ => true
  | _ :: _, [] => false
  | a :: as, b :: bs => a == b && subAt as bs

def containsSub (pat : List Char) : List Char → Bool
  | [] => subAt pat []
  | l@(_ :: rest) => subAt pat l || containsSub pat rest

/-- `pat` occurs as a contiguous substring of `hay`. -/
def strContains (hay pat : String) : Bool := containsSub pat.data hay.data

/-- A file that produces neither a compile command nor a bootstrap-script
line: type `user` or unrecognized. -/
def noScriptCmd (f : SourceFile) : Bool :=
  !isVlogT f.file_type && !isVhdlT f.file_type && f.file_type != "tclSource"

end EdalizeModelsim

namespace EdalizeModelsim

/-! ## Basic facts about the helpers -/

theorem applyDefault_logical (f : SourceFile) :
    (applyDefault f).logical_name = effName f.logical_name := by
  unfold applyDefault effName
  split <;> rfl

theorem applyDefault_name (f : SourceFile) : (applyDefault f).name = f.name := by
  unfold applyDefault
  split <;> rfl

theorem applyDefault_file_type (f : SourceFile) :
    (applyDefault f).file_type = f.file_type := by
  unfold applyDefault
  split <;> rfl

theorem mainOf_applyDefault (f : SourceFile) : mainOf (applyDefault f) = mainOf f := by
  unfold mainOf
  rw [applyDefault_file_type, applyDefault_name]

theorem warnOf_applyDefault (f : SourceFile) : warnOf (applyDefault f) = warnOf f := by
  unfold warnOf
  rw [applyDefault_file_type, applyDefault_name]

theorem mem_libsStep (libs : List String) (m n : String) (h : n ∈ libs) :
    n ∈ libsStep libs m := by
  unfold libsStep
  split
  · exact h
  · exact List.mem_append_left _ h

theorem self_mem_libsStep (libs : List String) (n : String) : n ∈ libsStep libs n := by
  unfold libsStep
  split
  · assumption
  · exact List.mem_append_right _ (List.mem_singleton.mpr rfl)

theorem mem_libsStep_iff (libs : List String) (m n : String) :
    n ∈ libsStep libs m ↔ n ∈ libs ∨ n = m := by
  unfold libsStep
  split
  · constructor
    · exact fun h => Or.inl h
    · rintro (h | rfl)
      · exact h
      · assumption
  · simp [List.mem_append]

theorem mem_compileEmit (c : Bool) (vo co d i : List String) (f : SourceFile)
    (l : TclLine) (h : l ∈ compileEmit c vo co d i f) :
    ∃ cm a, l = TclLine.compile cm a f.logical_name (slashify f.name) := by
  unfold compileEmit at h
  revert h
  cases dispatchCmd vo co d i f.file_type with
  | none => intro h; exact absurd h (List.not_mem_nil l)
  | some ca =>
      intro h
      by_cases hb : (ca.1 != "vlog" || !c) = true
      · simp only [hb, if_true] at h
        rw [List.mem_singleton] at h
        exact ⟨ca.1, ca.2, h⟩
      · simp only [hb, if_false] at h
        exact absurd h (List.not_mem_nil l)

theorem mem_emitFile (c : Bool) (vo co d i : List String) (libs : List String)
    (f : SourceFile) (l : TclLine) (h : l ∈ emitFile c vo co d i libs f) :
    l = TclLine.vlib (effName f.logical_name) ∨
      ∃ cm a, l = TclLine.compile cm a (effName f.logical_name) (slashify f.name) := by
  unfold emitFile at h
  rw [List.mem_append] at h
  rcases h with h | h
  · left
    revert h
    split
    · intro h; exact absurd h (List.not_mem_nil l)
    · intro h
      rw [List.mem_singleton] at h
      rw [h, applyDefault_logical]
  · right
    obtain ⟨cm, a, hl⟩ := mem_compileEmit _ _ _ _ _ _ _ h
    rw [applyDefault_logical, applyDefault_name] at hl
    exact ⟨cm, a, hl⟩

end EdalizeModelsim

namespace EdalizeModelsim

/-! ## Characterizing the loop of lines 118-165 -/

theorem foldl_script (c : Bool) (vo co d i : List String) (files : List SourceFile) :
    ∀ st : RtlState,
      (files.foldl (processFile c vo co d i) st).script =
        st.script ++ scriptOf c vo co d i st.libs files := by
  induction files with
  | nil => intro st; simp [scriptOf]
  | cons f fs ih =>
      intro st
      rw [List.foldl_cons, ih]
      simp only [processFile, scriptOf, applyDefault_logical, List.append_assoc]

theorem foldl_libs (c : Bool) (vo co d i : List String) (files : List SourceFile) :
    ∀ st : RtlState,
      (files.foldl (processFile c vo co d i) st).libs =
        (files.map (fun f => effName f.logical_name)).foldl libsStep st.libs := by
  induction files with
  | nil => intro st; rfl
  | cons f fs ih =>
      intro st
      rw [List.foldl_cons, ih, List.map_cons, List.foldl_cons]
      show List.foldl libsStep (libsStep st.libs (applyDefault f).logical_name) _ = _
      rw [applyDefault_logical]

theorem foldl_vlog_files (c : Bool) (vo co d i : List String) (files : List SourceFile) :
    ∀ st : RtlState,
      (files.foldl (processFile c vo co d i) st).vlog_files =
        st.vlog_files ++ (files.map applyDefault).filter (fun f => isVlogT f.file_type) := by
  induction files with
  | nil => intro st; simp
  | cons f fs ih =>
      intro st
      rw [List.foldl_cons, ih, List.map_cons, List.filter_cons]
      show st.vlog_files ++ (if isVlogT (applyDefault f).file_type then [applyDefault f] else []) ++ _ = _
      rw [applyDefault_file_type, List.append_assoc]
      by_cases hv : isVlogT f.file_type
      · simp [hv]
      · simp [hv]

theorem foldl_tcl_main (c : Bool) (vo co d i : List String) (files : List SourceFile) :
    ∀ st : RtlState,
      (files.foldl (processFile c vo co d i) st).tcl_main =
        st.tcl_main ++ files.filterMap mainOf := by
  induction files with
  | nil => intro st; simp
  | cons f fs ih =>
      intro st
      rw [List.foldl_cons, ih, List.filterMap_cons]
      show st.tcl_main ++ (mainOf (applyDefault f)).toList ++ _ = _
      rw [mainOf_applyDefault, List.append_assoc]
      cases h : mainOf f <;> simp [h]

theorem foldl_warnings (c : Bool) (vo co d i : List String) (files : List SourceFile) :
    ∀ st : RtlState,
      (files.foldl (processFile c vo co d i) st).warnings =
        st.warnings ++ files.filterMap warnOf := by
  induction files with
  | nil => intro st; simp
  | cons f fs ih =>
      intro st
      rw [List.foldl_cons, ih, List.filterMap_cons]
      show st.warnings ++ (warnOf (applyDefault f)).toList ++ _ = _
      rw [warnOf_applyDefault, List.append_assoc]
      cases h : warnOf f <;> simp [h]

theorem foldl_files_out (c : Bool) (vo co d i : List String) (files : List SourceFile) :
    ∀ st : RtlState,
      (files.foldl (processFile c vo co d i) st).files_out =
        st.files_out ++ files.map applyDefault := by
  induction files with
  | nil => intro st; simp
  | cons f fs ih =>
      intro st
      rw [List.foldl_cons, ih, List.map_cons]
      show st.files_out ++ [applyDefault f] ++ _ = _
      rw [List.append_assoc]
      rfl

end EdalizeModelsim

namespace EdalizeModelsim

/-! ## Facts about the emitted script lines -/

theorem filterMap_perCompile_emitFile_sep (vo co d i : List String)
    (libs : List String) (f : SourceFile) :
    (emitFile false vo co d i libs f).filterMap perCompile? =
      (expectedCompile vo co d i f).toList := by
  unfold emitFile compileEmit expectedCompile
  rw [List.filterMap_append]
  have hvlib : (if (applyDefault f).logical_name ∈ libs then ([] : List TclLine)
      else [TclLine.vlib (applyDefault f).logical_name]).filterMap perCompile? = [] := by
    split <;> simp [perCompile?]
  rw [hvlib, List.nil_append, applyDefault_file_type]
  cases dispatchCmd vo co d i f.file_type with
  | none => rfl
  | some ca =>
      simp only [Option.map_some, Option.toList_some]
      have : (ca.1 != "vlog" || !false) = true := by
        simp
      simp only [this, if_true]
      simp [perCompile?, applyDefault_logical, applyDefault_name]

theorem scriptOf_filterMap_perCompile_sep (vo co d i : List String)
    (files : List SourceFile) : ∀ libs,
    (scriptOf false vo co d i libs files).filterMap perCompile? =
      files.filterMap (expectedCompile vo co d i) := by
  induction files with
  | nil => intro libs; rfl
  | cons f fs ih =>
      intro libs
      simp only [scriptOf, List.filterMap_append, List.filterMap_cons]
      rw [filterMap_perCompile_emitFile_sep, ih]
      cases h : expectedCompile vo co d i f <;> simp [h]

theorem countP_emitFile_nonvlib (p : TclLine → Bool)
    (hvlib : ∀ n, p (TclLine.vlib n) = false)
    (c : Bool) (vo co d i : List String) (libs : List String) (f : SourceFile) :
    (emitFile c vo co d i libs f).countP p =
      (compileEmit c vo co d i (applyDefault f)).countP p := by
  unfold emitFile
  rw [List.countP_append]
  have : (if (applyDefault f).logical_name ∈ libs then ([] : List TclLine)
      else [TclLine.vlib (applyDefault f).logical_name]).countP p = 0 := by
    split
    · rfl
    · simp [List.countP_cons, hvlib]
  rw [this, Nat.zero_add]

theorem countP_compileEmit_agg (c : Bool) (vo co d i : List String) (f : SourceFile) :
    (compileEmit c vo co d i f).countP isAggL = 0 := by
  unfold compileEmit
  cases dispatchCmd vo co d i f.file_type with
  | none => rfl
  | some ca =>
      obtain ⟨cm, a⟩ := ca
      split <;> simp [List.countP_cons, isAggL]

theorem scriptOf_countP_agg (c : Bool) (vo co d i : List String)
    (files : List SourceFile) : ∀ libs,
    (scriptOf c vo co d i libs files).countP isAggL = 0 := by
  induction files with
  | nil => intro libs; rfl
  | cons f fs ih =>
      intro libs
      simp only [scriptOf, List.countP_append]
      rw [countP_emitFile_nonvlib isAggL (fun n => rfl), countP_compileEmit_agg, ih]

theorem countP_compileEmit_vlog_common (vo co d i : List String) (f : SourceFile) :
    (compileEmit true vo co d i f).countP isVlogLine = 0 := by
  unfold compileEmit dispatchCmd
  by_cases h1 : isVlogT f.file_type
  · simp [h1]
  · by_cases h2 : isVhdlT f.file_type
    · simp [h1, h2, List.countP_cons, isVlogLine]
    · simp [h1, h2]

theorem scriptOf_countP_vlog_common (vo co d i : List String)
    (files : List SourceFile) : ∀ libs,
    (scriptOf true vo co d i libs files).countP isVlogLine = 0 := by
  induction files with
  | nil => intro libs; rfl
  | cons f fs ih =>
      intro libs
      simp only [scriptOf, List.countP_append]
      rw [countP_emitFile_nonvlib isVlogLine (fun n => rfl),
        countP_compileEmit_vlog_common, ih]

theorem countP_compileEmit_vcom (c : Bool) (vo co d i : List String) (f : SourceFile) :
    (compileEmit c vo co d i f).countP isVcomLine =
      if !isVlogT f.file_type && isVhdlT f.file_type then 1 else 0 := by
  unfold compileEmit dispatchCmd
  by_cases h1 : isVlogT f.file_type
  · simp only [h1, if_true, Bool.not_true, Bool.false_and, if_false]
    split
    · simp [List.countP_cons, isVcomLine]
    · rfl
  · by_cases h2 : isVhdlT f.file_type
    · simp [h1, h2, List.countP_cons, isVcomLine]
    · simp [h1, h2]

theorem scriptOf_countP_vcom (c : Bool) (vo co d i : List String)
    (files : List SourceFile) : ∀ libs,
    (scriptOf c vo co d i libs files).countP isVcomLine =
      files.countP (fun f => !isVlogT f.file_type && isVhdlT f.file_type) := by
  induction files with
  | nil => intro libs; rfl
  | cons f fs ih =>
      intro libs
      simp only [scriptOf, List.countP_append, List.countP_cons]
      rw [countP_emitFile_nonvlib isVcomLine (fun n => rfl),
        countP_compileEmit_vcom, ih]
      simp only [applyDefault_file_type]
      by_cases h : (!isVlogT f.file_type && isVhdlT f.file_type) = true
      · simp [h, Nat.add_comm]
      · simp [h]

end EdalizeModelsim

namespace EdalizeModelsim

/-! ## Library declaration bookkeeping -/

theorem filterMap_vlibName_compileEmit (c : Bool) (vo co d i : List String)
    (f : SourceFile) :
    (compileEmit c vo co d i f).filterMap vlibName? = [] := by
  unfold compileEmit
  cases dispatchCmd vo co d i f.file_type with
  | none => rfl
  | some ca =>
      obtain ⟨cm, a⟩ := ca
      split <;> simp [vlibName?]

theorem scriptOf_vlibNames (c : Bool) (vo co d i : List String)
    (files : List SourceFile) : ∀ libs,
    libs ++ (scriptOf c vo co d i libs files).filterMap vlibName? =
      (files.map (fun f => effName f.logical_name)).foldl libsStep libs := by
  induction files with
  | nil => intro libs; simp [scriptOf]
  | cons f fs ih =>
      intro libs
      simp only [scriptOf, List.filterMap_append, List.map_cons, List.foldl_cons]
      unfold emitFile
      rw [List.filterMap_append, filterMap_vlibName_compileEmit, List.append_nil,
        applyDefault_logical]
      rw [← ih (libsStep libs (effName f.logical_name))]
      unfold libsStep
      split
      · simp [vlibName?]
      · simp [vlibName?, List.append_assoc]

end EdalizeModelsim

namespace EdalizeModelsim

theorem no_vlib_compileEmit (c : Bool) (vo co d i : List String) (f : SourceFile)
    (L : String) (x : TclLine) (hx : x ∈ compileEmit c vo co d i f) :
    isVlibFor L x = false := by
  obtain ⟨cm, a, hl⟩ := mem_compileEmit c vo co d i f x hx
  rw [hl]
  rfl

theorem scriptOf_no_vlib_of_mem (c : Bool) (vo co d i : List String)
    (files : List SourceFile) : ∀ libs (L : String), L ∈ libs →
    ∀ x ∈ scriptOf c vo co d i libs files, isVlibFor L x = false := by
  induction files with
  | nil => intro libs L hL x hx; exact absurd hx (List.not_mem_nil x)
  | cons f fs ih =>
      intro libs L hL x hx
      simp only [scriptOf, List.mem_append] at hx
      rcases hx with hx | hx
      · unfold emitFile at hx
        rw [List.mem_append] at hx
        rcases hx with hx | hx
        · revert hx
          split
          · intro hx; exact absurd hx (List.not_mem_nil x)
          · rename_i hnot
            intro hx
            rw [List.mem_singleton] at hx
            rw [hx]
            unfold isVlibFor
            rw [applyDefault_logical]
            rw [applyDefault_logical] at hnot
            have hne : effName f.logical_name ≠ L := by
              intro he
              rw [he] at hnot
              exact hnot hL
            exact beq_eq_false_iff_ne.mpr hne
        · exact no_vlib_compileEmit c vo co d i _ L x hx
      · exact ih _ L (mem_libsStep libs _ L hL) x hx

end EdalizeModelsim

namespace EdalizeModelsim

theorem no_refs_compileEmit (c : Bool) (vo co d i : List String) (f : SourceFile)
    (L : String) (hne : (applyDefault f).logical_name ≠ L)
    (x : TclLine) (hx : x ∈ compileEmit c vo co d i (applyDefault f)) :
    refsWork L x = false := by
  obtain ⟨cm, a, hl⟩ := mem_compileEmit c vo co d i _ x hx
  rw [hl]
  unfold refsWork
  exact beq_eq_false_iff_ne.mpr hne

theorem scriptOf_vlib_decomp (c : Bool) (vo co d i : List String)
    (files : List SourceFile) : ∀ libs (L : String), L ∉ libs →
    L ∈ files.map (fun f => effName f.logical_name) →
    ∃ A B, scriptOf c vo co d i libs files = A ++ TclLine.vlib L :: B ∧
      (∀ x ∈ A, isVlibFor L x = false ∧ refsWork L x = false) ∧
      (∀ x ∈ B, isVlibFor L x = false) := by
  induction files with
  | nil => intro libs L hnot hmem; exact absurd hmem (List.not_mem_nil L)
  | cons f fs ih =>
      intro libs L hnot hmem
      by_cases he : effName f.logical_name = L
      · refine ⟨[], compileEmit c vo co d i (applyDefault f) ++
          scriptOf c vo co d i (libsStep libs (effName f.logical_name)) fs, ?_, ?_, ?_⟩
        · simp only [scriptOf, List.nil_append]
          unfold emitFile
          simp only [applyDefault_logical, he]
          rw [if_neg hnot]
          simp
        · intro x hx; exact absurd hx (List.not_mem_nil x)
        · intro x hx
          rw [List.mem_append] at hx
          rcases hx with hx | hx
          · exact no_vlib_compileEmit c vo co d i _ L x hx
          · exact scriptOf_no_vlib_of_mem c vo co d i fs _ L
              (he ▸ self_mem_libsStep libs (effName f.logical_name)) x hx
      · have hmem2 : L ∈ fs.map (fun f => effName f.logical_name) := by
          rw [List.map_cons, List.mem_cons] at hmem
          rcases hmem with hmem | hmem
          · exact absurd hmem.symm he
          · exact hmem
        have hnot2 : L ∉ libsStep libs (effName f.logical_name) := by
          rw [mem_libsStep_iff]
          rintro (h | h)
          · exact hnot h
          · exact he h.symm
        obtain ⟨A, B, hAB, hA, hB⟩ := ih (libsStep libs (effName f.logical_name)) L hnot2 hmem2
        refine ⟨emitFile c vo co d i libs f ++ A, B, ?_, ?_, hB⟩
        · simp only [scriptOf, hAB, List.append_assoc]
        · intro x hx
          rw [List.mem_append] at hx
          rcases hx with hx | hx
          · constructor
            · rcases mem_emitFile c vo co d i libs f x hx with hv | ⟨cm, a, hc⟩
              · rw [hv]
                unfold isVlibFor
                exact beq_eq_false_iff_ne.mpr he
              · rw [hc]; rfl
            · unfold emitFile at hx
              rw [List.mem_append] at hx
              rcases hx with hx | hx
              · revert hx
                split
                · intro hx; exact absurd hx (List.not_mem_nil x)
                · intro hx
                  rw [List.mem_singleton] at hx
                  rw [hx]
                  rfl
              · refine no_refs_compileEmit c vo co d i f L ?_ x hx
                rw [applyDefault_logical]
                exact he
          · exact hA x hx

theorem scriptOf_vlib_mem (c : Bool) (vo co d i : List String)
    (files : List SourceFile) : ∀ libs (f : SourceFile), f ∈ files →
    effName f.logical_name ∉ libs →
    TclLine.vlib (effName f.logical_name) ∈ scriptOf c vo co d i libs files := by
  induction files with
  | nil => intro libs f hf; exact absurd hf (List.not_mem_nil f)
  | cons g gs ih =>
      intro libs f hf hnot
      rw [List.mem_cons] at hf
      simp only [scriptOf, List.mem_append]
      by_cases he : effName f.logical_name = effName g.logical_name
      · left
        unfold emitFile
        rw [List.mem_append]
        left
        simp only [applyDefault_logical, ← he]
        rw [if_neg hnot]
        exact List.mem_singleton.mpr rfl
      · rcases hf with hf | hf
        · exact absurd (congrArg (fun z => effName z.logical_name) hf) he
        · right
          refine ih (libsStep libs (effName g.logical_name)) f hf ?_
          rw [mem_libsStep_iff]
          rintro (h | h)
          · exact hnot h
          · exact he h

end EdalizeModelsim

namespace EdalizeModelsim

/-! ## Unfolding `write_build_rtl` by compilation mode -/

theorem write_build_rtl_sep (opts : ToolOptions) (vd : List (String × String))
    (files : List SourceFile) (incs : List String)
    (h : opts.compilation_mode ≠ "common") :
    write_build_rtl opts vd files incs =
      files.foldl (processFile false opts.vlog_options opts.vcom_options
        (defineFlags vd) (incFlags incs)) initState := by
  have hc : (opts.compilation_mode == "common") = false := beq_eq_false_iff_ne.mpr h
  unfold write_build_rtl initState
  simp only [hc, Bool.false_eq_true, if_false]

theorem write_build_rtl_common (opts : ToolOptions) (vd : List (String × String))
    (files : List SourceFile) (incs : List String)
    (h : opts.compilation_mode = "common") :
    write_build_rtl opts vd files incs =
      { files.foldl (processFile true opts.vlog_options opts.vcom_options
          (defineFlags vd) (incFlags incs)) initState with
        script :=
          (files.foldl (processFile true opts.vlog_options opts.vcom_options
            (defineFlags vd) (incFlags incs)) initState).script ++
          [TclLine.commonVlog
            (aggArgs opts.vlog_options (defineFlags vd) (incFlags incs)
              (files.foldl (processFile true opts.vlog_options opts.vcom_options
                (defineFlags vd) (incFlags incs)) initState).vlog_files)
            ((files.foldl (processFile true opts.vlog_options opts.vcom_options
              (defineFlags vd) (incFlags incs)) initState).vlog_files.map
              (fun f => slashify f.name))] } := by
  have hc : (opts.compilation_mode == "common") = true := beq_iff_eq.mpr h
  unfold write_build_rtl initState
  simp only [hc, if_true]

theorem subAt_refl (l : List Char) : subAt l l = true := by
  induction l with
  | nil => rfl
  | cons a as ih => simp [subAt, ih]

theorem subAt_append (p l x : List Char) (h : subAt p l = true) :
    subAt p (l ++ x) = true := by
  induction p generalizing l with
  | nil => rfl
  | cons a as ih =>
      cases l with
      | nil => exact absurd h (by simp [subAt])
      | cons b bs =>
          simp only [subAt, Bool.and_eq_true] at h
          simp only [List.cons_append, subAt, Bool.and_eq_true]
          exact ⟨h.1, ih bs h.2⟩

theorem containsSub_nil_pat (l : List Char) : containsSub [] l = true := by
  cases l <;> simp [containsSub, subAt]

theorem containsSub_self (p : List Char) : containsSub p p = true := by
  cases p with
  | nil => rfl
  | cons a as => simp [containsSub, subAt_refl]

theorem containsSub_append_right (p x l : List Char) (h : containsSub p l = true) :
    containsSub p (x ++ l) = true := by
  induction x with
  | nil => exact h
  | cons c cs ih => simp [containsSub, ih]

theorem containsSub_append_left (p l x : List Char) (h : containsSub p l = true) :
    containsSub p (l ++ x) = true := by
  induction l with
  | nil =>
      cases p with
      | nil => exact containsSub_nil_pat x
      | cons a as => exact absurd h (by simp [containsSub, subAt])
  | cons c cs ih =>
      simp only [containsSub, Bool.or_eq_true] at h
      simp only [List.cons_append, containsSub, Bool.or_eq_true]
      rcases h with h | h
      · exact Or.inl (subAt_append _ _ _ h)
      · exact Or.inr (ih h)

theorem strContains_append_right (a b pat : String) (h : strContains b pat = true) :
    strContains (a ++ b) pat = true := by
  unfold strContains at *
  rw [String.data_append]
  exact containsSub_append_right _ _ _ h

theorem strContains_append_left (a b pat : String) (h : strContains a pat = true) :
    strContains (a ++ b) pat = true := by
  unfold strContains at *
  rw [String.data_append]
  exact containsSub_append_left _ _ _ h

theorem strContains_self (s : String) : strContains s s = true :=
  containsSub_self s.data

theorem strContains_strConcat (chunks : List String) (s : String) (h : s ∈ chunks) :
    strContains (strConcat chunks) s = true := by
  induction chunks with
  | nil => exact absurd h (List.not_mem_nil s)
  | cons c cs ih =>
      rw [List.mem_cons] at h
      unfold strConcat
      rcases h with h | h
      · rw [h]
        exact strContains_append_left _ _ _ (strContains_self c)
      · exact strContains_append_right _ _ _ (ih h)

end EdalizeModelsim

namespace EdalizeModelsim

/-! ## Projections of `write_build_rtl` -/

theorem filter_isVlog_map_applyDefault (files : List SourceFile) :
    (files.map applyDefault).filter (fun f => isVlogT f.file_type) =
      (files.filter (fun f => isVlogT f.file_type)).map applyDefault := by
  induction files with
  | nil => rfl
  | cons f fs ih =>
      simp only [List.map_cons, List.filter_cons, applyDefault_file_type]
      by_cases h : isVlogT f.file_type <;> simp [h, ih]

theorem any_isSv_map_applyDefault (vf : List SourceFile) :
    (vf.map applyDefault).any (fun f => isSvT f.file_type) =
      vf.any (fun f => isSvT f.file_type) := by
  induction vf with
  | nil => rfl
  | cons f fs ih => simp [applyDefault_file_type, ih]

theorem map_name_map_applyDefault (vf : List SourceFile) :
    (vf.map applyDefault).map (fun f => slashify f.name) =
      vf.map (fun f => slashify f.name) := by
  induction vf with
  | nil => rfl
  | cons f fs ih => simp [applyDefault_name, ih]

theorem aggArgs_map_applyDefault (vo d i : List String) (vf : List SourceFile) :
    aggArgs vo d i (vf.map applyDefault) = aggArgs vo d i vf := by
  unfold aggArgs
  rw [any_isSv_map_applyDefault]

theorem write_build_rtl_script_sep (opts : ToolOptions) (vd : List (String × String))
    (files : List SourceFile) (incs : List String)
    (h : opts.compilation_mode ≠ "common") :
    (write_build_rtl opts vd files incs).script =
      scriptOf false opts.vlog_options opts.vcom_options (defineFlags vd)
        (incFlags incs) [] files := by
  rw [write_build_rtl_sep opts vd files incs h, foldl_script]
  rfl

theorem write_build_rtl_script_common (opts : ToolOptions) (vd : List (String × String))
    (files : List SourceFile) (incs : List String)
    (h : opts.compilation_mode = "common") :
    (write_build_rtl opts vd files incs).script =
      scriptOf true opts.vlog_options opts.vcom_options (defineFlags vd)
        (incFlags incs) [] files ++
      [TclLine.commonVlog
        (aggArgs opts.vlog_options (defineFlags vd) (incFlags incs)
          (files.filter (fun f => isVlogT f.file_type)))
        ((files.filter (fun f => isVlogT f.file_type)).map (fun f => slashify f.name))] := by
  rw [write_build_rtl_common opts vd files incs h]
  show (files.foldl _ initState).script ++ _ = _
  rw [foldl_script, foldl_vlog_files, filter_isVlog_map_applyDefault]
  simp only [initState, List.nil_append, aggArgs_map_applyDefault,
    map_name_map_applyDefault]

theorem write_build_rtl_warnings (opts : ToolOptions) (vd : List (String × String))
    (files : List SourceFile) (incs : List String) :
    (write_build_rtl opts vd files incs).warnings = files.filterMap warnOf := by
  by_cases h : opts.compilation_mode = "common"
  · rw [write_build_rtl_common opts vd files incs h]
    show (files.foldl _ initState).warnings = _
    rw [foldl_warnings]
    rfl
  · rw [write_build_rtl_sep opts vd files incs h, foldl_warnings]
    rfl

theorem write_build_rtl_tcl_main (opts : ToolOptions) (vd : List (String × String))
    (files : List SourceFile) (incs : List String) :
    (write_build_rtl opts vd files incs).tcl_main = files.filterMap mainOf := by
  by_cases h : opts.compilation_mode = "common"
  · rw [write_build_rtl_common opts vd files incs h]
    show (files.foldl _ initState).tcl_main = _
    rw [foldl_tcl_main]
    rfl
  · rw [write_build_rtl_sep opts vd files incs h, foldl_tcl_main]
    rfl

theorem write_build_rtl_files_out (opts : ToolOptions) (vd : List (String × String))
    (files : List SourceFile) (incs : List String) :
    (write_build_rtl opts vd files incs).files_out = files.map applyDefault := by
  by_cases h : opts.compilation_mode = "common"
  · rw [write_build_rtl_common opts vd files incs h]
    show (files.foldl _ initState).files_out = _
    rw [foldl_files_out]
    rfl
  · rw [write_build_rtl_sep opts vd files incs h, foldl_files_out]
    rfl

end EdalizeModelsim

namespace EdalizeModelsim

/-! ## Claim theorems -/

/-- Claim C1 (settled against the code): the `vcom` standard-revision
flag.  Lines 141-148 are three `if` statements of which only the last
(the `-2008` test) carries an `else`; that `else` reassigns `args`
unconditionally, so the `-87` and `-93` stores are dead.  Evaluating the
embedded code: a `vhdlSource-87` file and a `vhdlSource-93` file get NO
revision flag (the claim says they get `-87` resp. `-93`), a
`vhdlSource-2008` file gets `-2008`, a plain `vhdlSource` file gets
none; in every case the user-supplied vcom_options follow. -/
theorem C1_vcom_revision_code_eval :
    (write_build_rtl ⟨"sep", ["-uopt"], [], []⟩ []
      [⟨"a.vhd", "vhdlSource-87", ""⟩, ⟨"b.vhd", "vhdlSource-93", ""⟩,
       ⟨"c.vhd", "vhdlSource-2008", ""⟩, ⟨"d.vhd", "vhdlSource", ""⟩] []).script =
    [TclLine.vlib "work",
     TclLine.compile "vcom" ["-uopt"] "work" "a.vhd",
     TclLine.compile "vcom" ["-uopt"] "work" "b.vhd",
     TclLine.compile "vcom" ["-2008", "-uopt"] "work" "c.vhd",
     TclLine.compile "vcom" ["-uopt"] "work" "d.vhd"] := by rfl

/-- Claim C6: `run_main` invokes the external process runner with
command `make` and argument list starting with "run", followed by a
single space-joined `PLUSARGS=...` argument exactly when the plusarg
mapping is non-empty; for plusarg seed=1 the issued command is
`make run PLUSARGS=seed=1`. -/
theorem C6_run_main_plusargs (p : List (String × String)) :
    run_main p = ("make",
      if p.isEmpty then ["run"]
      else ["run", "PLUSARGS=" ++ joinSp (p.map kvStr)]) ∧
    run_main [("seed", "1")] = ("make", ["run", "PLUSARGS=seed=1"]) := by
  constructor
  · cases p <;> rfl
  · rfl

/-- Claim C4, counterexample: a file with an unrecognized type does NOT
produce zero script lines attributable to it.  With a single
unrecognized file carrying a fresh logical_name, the build script
contains a `vlib` line (emitted at lines 121-123 before the type
dispatch), and exactly one warning naming the file and its type is
logged. -/
theorem C4_counterexample :
    (write_build_rtl ⟨"sep", [], [], []⟩ []
      [⟨"f.xyz", "unknownType", "mylib"⟩] []).script = [TclLine.vlib "mylib"] ∧
    (write_build_rtl ⟨"sep", [], [], []⟩ []
      [⟨"f.xyz", "unknownType", "mylib"⟩] []).warnings =
      [("f.xyz", "unknownType")] := by
  constructor <;> rfl

/-- Claim C4 as amended: an unrecognized file type produces exactly one
warning log entry naming the file and its type, a `user` file is skipped
with no warning, and such files contribute no compile directive and no
bootstrap-script line — but a library-creation (`vlib`) directive for
the file's logical_name may still be emitted. -/
theorem C4_skip_and_warn (opts : ToolOptions) (vd : List (String × String))
    (files : List SourceFile) (incs : List String) :
    (write_build_rtl opts vd files incs).warnings = files.filterMap warnOf ∧
    (∀ f : SourceFile, f.file_type = "user" → warnOf f = none) ∧
    (∀ f : SourceFile, warnOf f = none ∨ warnOf f = some (f.name, f.file_type)) ∧
    ((∀ f ∈ files, noScriptCmd f = true) →
      (write_build_rtl opts vd files incs).tcl_main = [] ∧
      (write_build_rtl opts vd files incs).script.countP isCompileL = 0) := by
  refine ⟨write_build_rtl_warnings opts vd files incs, ?_, ?_, ?_⟩
  · intro f hf
    unfold warnOf
    rw [hf]
    simp
  · intro f
    unfold warnOf
    split
    · exact Or.inl rfl
    · exact Or.inr rfl
  · intro hall
    constructor
    · rw [write_build_rtl_tcl_main]
      rw [List.filterMap_eq_nil_iff]
      intro f hf
      unfold mainOf
      have := hall f hf
      unfold noScriptCmd at this
      simp only [Bool.and_eq_true, bne_iff_ne] at this
      rw [if_neg this.2]
    · have hc : ∀ (c : Bool) libs,
          (scriptOf c opts.vlog_options opts.vcom_options (defineFlags vd)
            (incFlags incs) libs files).countP isCompileL = 0 := by
        intro c
        induction files with
        | nil => intro libs; rfl
        | cons f fs ih =>
            intro libs
            simp only [scriptOf, List.countP_append]
            have h1 := hall f (List.mem_cons_self f fs)
            unfold noScriptCmd at h1
            simp only [Bool.and_eq_true, Bool.not_eq_true'] at h1
            have h2 : (emitFile c opts.vlog_options opts.vcom_options (defineFlags vd)
                (incFlags incs) libs f).countP isCompileL = 0 := by
              rw [countP_emitFile_nonvlib isCompileL (fun n => rfl)]
              unfold compileEmit dispatchCmd
              rw [applyDefault_file_type, h1.1.1, h1.1.2]
              rfl
            rw [h2, ih (fun g hg => hall g (List.mem_cons_of_mem f hg))]
      by_cases h : opts.compilation_mode = "common"
      · rw [write_build_rtl_script_common opts vd files incs h, List.countP_append, hc]
        rfl
      · rw [write_build_rtl_script_sep opts vd files incs h, hc]
end EdalizeModelsim

namespace EdalizeModelsim

/-- Claim C8, counterexample: generation mutates the supplied record.
Line 120 assigns `f.logical_name = "work"` in place, so a file supplied
with an unset logical_name is not the same record after generation. -/
theorem C8_counterexample :
    (write_build_rtl ⟨"sep", [], [], []⟩ []
      [⟨"a.v", "verilogSource", ""⟩] []).files_out ≠
      [(⟨"a.v", "verilogSource", ""⟩ : SourceFile)] := by decide

/-- Claim C8 as amended: generation leaves `name` and `file_type` of
every supplied record unchanged, and leaves `logical_name` unchanged
whenever it was supplied non-empty; but a missing (empty) logical_name
is actually assigned "work" in place (line 120), not merely treated as
"work". -/
theorem C8_files_out_frame (opts : ToolOptions) (vd : List (String × String))
    (files : List SourceFile) (incs : List String) :
    (write_build_rtl opts vd files incs).files_out = files.map applyDefault ∧
    (∀ f : SourceFile, f.logical_name ≠ "" → applyDefault f = f) ∧
    (∀ f : SourceFile, (applyDefault f).name = f.name ∧
      (applyDefault f).file_type = f.file_type ∧
      (applyDefault f).logical_name = effName f.logical_name) := by
  refine ⟨write_build_rtl_files_out opts vd files incs, ?_, ?_⟩
  · intro f hf
    unfold applyDefault
    rw [if_neg hf]
  · intro f
    exact ⟨applyDefault_name f, applyDefault_file_type f, applyDefault_logical f⟩

/-- Claim C9: the `vlib` directive for a file's (effective) logical_name
is emitted for every file of the input list — the emission at lines
121-123 precedes the type dispatch, so it happens for tclSource, user
and unrecognized files too.  The second conjunct exhibits this: for a
single `user` file with library "foo" the whole build script is the
`vlib foo` line, a library-creation directive that no compile directive
references. -/
theorem C9_vlib_for_every_file (opts : ToolOptions) (vd : List (String × String))
    (files : List SourceFile) (incs : List String) (f : SourceFile)
    (hf : f ∈ files) :
    TclLine.vlib (effName f.logical_name) ∈ (write_build_rtl opts vd files incs).script ∧
    (write_build_rtl ⟨"sep", [], [], []⟩ [] [⟨"f.dat", "user", "foo"⟩] []).script =
      [TclLine.vlib "foo"] := by
  constructor
  · by_cases h : opts.compilation_mode = "common"
    · rw [write_build_rtl_script_common opts vd files incs h]
      exact List.mem_append_left _
        (scriptOf_vlib_mem true opts.vlog_options opts.vcom_options (defineFlags vd)
          (incFlags incs) files [] f hf (List.not_mem_nil _))
    · rw [write_build_rtl_script_sep opts vd files incs h]
      exact scriptOf_vlib_mem false opts.vlog_options opts.vcom_options (defineFlags vd)
        (incFlags incs) files [] f hf (List.not_mem_nil _)
  · rfl

theorem vlib_decomp_with_tail (c : Bool) (vo co d i : List String)
    (files : List SourceFile) (rest : List TclLine) (L : String)
    (hrest : ∀ x ∈ rest, isVlibFor L x = false)
    (hL : L ∈ files.map (fun f => effName f.logical_name)) :
    ∃ A B, scriptOf c vo co d i [] files ++ rest = A ++ TclLine.vlib L :: B ∧
      (∀ x ∈ A, isVlibFor L x = false ∧ refsWork L x = false) ∧
      (∀ x ∈ B, isVlibFor L x = false) := by
  obtain ⟨A, B, hAB, hA, hB⟩ :=
    scriptOf_vlib_decomp c vo co d i files [] L (List.not_mem_nil L) hL
  refine ⟨A, B ++ rest, ?_, hA, ?_⟩
  · rw [hAB]
    simp [List.append_assoc]
  · intro x hx
    rw [List.mem_append] at hx
    rcases hx with hx | hx
    · exact hB x hx
    · exact hrest x hx

end EdalizeModelsim

namespace EdalizeModelsim

/-- Claim C3: for every logical_name occurring in the (defaulted) input
list, the build script contains the `vlib` directive for that name
exactly once (the decomposition `A ++ vlib L :: B` with no other
`vlib L` in `A` or `B`), positioned before the first compile directive
that references that name (no line of `A` references `L`), and the
`vlib` directives appear in first-seen order of their names (their
sequence equals the duplicate-dropping left fold of the names). -/
theorem C3_vlib_once_before_use (opts : ToolOptions) (vd : List (String × String))
    (files : List SourceFile) (incs : List String) (L : String)
    (hL : L ∈ files.map (fun f => effName f.logical_name)) :
    (∃ A B, (write_build_rtl opts vd files incs).script = A ++ TclLine.vlib L :: B ∧
      (∀ x ∈ A, isVlibFor L x = false ∧ refsWork L x = false) ∧
      (∀ x ∈ B, isVlibFor L x = false)) ∧
    (write_build_rtl opts vd files incs).script.filterMap vlibName? =
      (files.map (fun f => effName f.logical_name)).foldl libsStep [] := by
  by_cases h : opts.compilation_mode = "common"
  · rw [write_build_rtl_script_common opts vd files incs h]
    constructor
    · refine vlib_decomp_with_tail true opts.vlog_options opts.vcom_options
        (defineFlags vd) (incFlags incs) files _ L ?_ hL
      intro x hx
      rw [List.mem_singleton] at hx
      rw [hx]
      rfl
    · rw [List.filterMap_append]
      have h2 : (scriptOf true opts.vlog_options opts.vcom_options (defineFlags vd)
          (incFlags incs) [] files).filterMap vlibName? =
          (files.map (fun f => effName f.logical_name)).foldl libsStep [] := by
        have := scriptOf_vlibNames true opts.vlog_options opts.vcom_options
          (defineFlags vd) (incFlags incs) files []
        rw [List.nil_append] at this
        exact this
      rw [h2]
      simp [vlibName?]
  · rw [write_build_rtl_script_sep opts vd files incs h]
    constructor
    · have := vlib_decomp_with_tail false opts.vlog_options opts.vcom_options
        (defineFlags vd) (incFlags incs) files [] L (fun x hx => absurd hx (List.not_mem_nil x)) hL
      rw [List.append_nil] at this
      exact this
    · have := scriptOf_vlibNames false opts.vlog_options opts.vcom_options
        (defineFlags vd) (incFlags incs) files []
      rw [List.nil_append] at this
      exact this

theorem expectedCompile_isSome (vo co d i : List String) (f : SourceFile) :
    (expectedCompile vo co d i f).isSome =
      (isVlogT f.file_type || isVhdlT f.file_type) := by
  unfold expectedCompile dispatchCmd
  by_cases h1 : isVlogT f.file_type
  · simp [h1]
  · by_cases h2 : isVhdlT f.file_type <;> simp [h1, h2]

theorem length_filterMap_expected (vo co d i : List String) (files : List SourceFile) :
    (files.filterMap (expectedCompile vo co d i)).length =
      files.countP (fun f => isVlogT f.file_type || isVhdlT f.file_type) := by
  induction files with
  | nil => rfl
  | cons f fs ih =>
      rw [List.filterMap_cons, List.countP_cons]
      have hs := expectedCompile_isSome vo co d i f
      cases he : expectedCompile vo co d i f with
      | none =>
          rw [he] at hs
          simp only [Option.isSome_none] at hs
          have hp : (isVlogT f.file_type || isVhdlT f.file_type) = false := hs.symm
          simp [ih, hp]
      | some v =>
          rw [he] at hs
          simp only [Option.isSome_some] at hs
          have hp : (isVlogT f.file_type || isVhdlT f.file_type) = true := hs.symm
          simp [ih, hp]

/-- Claim C5: in separate-compilation mode the sequence of per-file
compile directives is exactly one directive per eligible
Verilog/SystemVerilog/VHDL file (`expectedCompile`: the dispatched
command and options, the file's effective logical_name as `-work`
library and its slash-normalized path), so their number equals the
number of eligible files; and every per-file compile directive renders
with the trailing `-quiet -work <logical_name> <path>`. -/
theorem C5_separate_per_file (opts : ToolOptions) (vd : List (String × String))
    (files : List SourceFile) (incs : List String)
    (h : opts.compilation_mode ≠ "common") :
    (write_build_rtl opts vd files incs).script.filterMap perCompile? =
      files.filterMap (expectedCompile opts.vlog_options opts.vcom_options
        (defineFlags vd) (incFlags incs)) ∧
    ((write_build_rtl opts vd files incs).script.filterMap perCompile?).length =
      files.countP (fun f => isVlogT f.file_type || isVhdlT f.file_type) ∧
    (∀ l ∈ (write_build_rtl opts vd files incs).script, ∀ c a w p,
      l = TclLine.compile c a w p →
      renderLine l = c ++ " " ++ joinSp (a ++ ["-quiet", "-work", w, p])) := by
  have hmain : (write_build_rtl opts vd files incs).script.filterMap perCompile? =
      files.filterMap (expectedCompile opts.vlog_options opts.vcom_options
        (defineFlags vd) (incFlags incs)) := by
    rw [write_build_rtl_script_sep opts vd files incs h,
      scriptOf_filterMap_perCompile_sep]
  refine ⟨hmain, ?_, ?_⟩
  · rw [hmain, length_filterMap_expected]
  · intro l hl c a w p he
    rw [he]
    rfl

/-- Claim C2: in common-compilation mode the build script contains
exactly one aggregate `vlog` directive; it is the last line, covers all
Verilog/SystemVerilog files of the list together, carries the (global)
define flags and include directories, `-sv` exactly when some collected
file is SystemVerilog, the `-quiet`, `-work work` and `-mfcu` tail
(`aggArgs`); per-file `vlog` directives are suppressed, and each VHDL
file still produces its own `vcom` directive. -/
theorem C2_common_aggregate (opts : ToolOptions) (vd : List (String × String))
    (files : List SourceFile) (incs : List String)
    (h : opts.compilation_mode = "common") :
    (write_build_rtl opts vd files incs).script.countP isAggL = 1 ∧
    (write_build_rtl opts vd files incs).script.getLast? =
      some (TclLine.commonVlog
        (aggArgs opts.vlog_options (defineFlags vd) (incFlags incs)
          (files.filter (fun f => isVlogT f.file_type)))
        ((files.filter (fun f => isVlogT f.file_type)).map (fun f => slashify f.name))) ∧
    (write_build_rtl opts vd files incs).script.countP isVlogLine = 0 ∧
    (write_build_rtl opts vd files incs).script.countP isVcomLine =
      files.countP (fun f => !isVlogT f.file_type && isVhdlT f.file_type) := by
  rw [write_build_rtl_script_common opts vd files incs h]
  refine ⟨?_, ?_, ?_, ?_⟩
  · rw [List.countP_append, scriptOf_countP_agg]
    rfl
  · exact List.getLast?_concat _
  · rw [List.countP_append, scriptOf_countP_vlog_common]
    rfl
  · rw [List.countP_append, scriptOf_countP_vcom]
    simp [isVcomLine, List.countP_cons]

/-- Claim C10: in common-compilation mode the aggregate `vlog` line is
written unconditionally — the last script line is always the aggregate
directive, and when the input list contains no Verilog/SystemVerilog
file at all it lists no source files (and, having collected none, also
no `-sv`). -/
theorem C10_aggregate_unconditional (opts : ToolOptions) (vd : List (String × String))
    (files : List SourceFile) (incs : List String)
    (h : opts.compilation_mode = "common") :
    (∃ a fl, (write_build_rtl opts vd files incs).script.getLast? =
      some (TclLine.commonVlog a fl)) ∧
    ((∀ f ∈ files, isVlogT f.file_type = false) →
      (write_build_rtl opts vd files incs).script.getLast? =
        some (TclLine.commonVlog
          (opts.vlog_options ++ defineFlags vd ++ incFlags incs ++
            ["-quiet", "-work", "work", "-mfcu"]) [])) := by
  constructor
  · rw [write_build_rtl_script_common opts vd files incs h]
    exact ⟨_, _, List.getLast?_concat _⟩
  · intro hall
    rw [write_build_rtl_script_common opts vd files incs h]
    have hf : files.filter (fun f => isVlogT f.file_type) = [] := by
      rw [List.filter_eq_nil_iff]
      intro f hff
      rw [hall f hff]
      exact Bool.false_ne_true
    rw [hf]
    unfold aggArgs
    simp only [List.any_nil, Bool.false_eq_true, if_false, List.map_nil,
      List.append_nil, List.nil_append]
    exact List.getLast?_concat _

end EdalizeModelsim

namespace EdalizeModelsim

set_option maxRecDepth 40000 in
/-- Claim C7: every VPI module descriptor yields its `VPI_MAKE_SECTION`
instance — object list (one `.o` per source with the same base name),
`-l` library flags, `$(INCS)` plus `-I` include flags, a link target and
a `clean_<name>` target — inside the generated Makefile; in particular
for module foo with sources a.c and b.cpp, library m and include
directory /x, the Makefile contains `foo_OBJS := a.o b.o`,
`foo_LIBS := -lm`, `foo_INCS := $(INCS) -I/x`, a `foo` target and a
`clean_foo` target removing the objects and the binary. -/
theorem C7_vpi_make_sections (toplevel : String) (vp g pa : List (String × String))
    (vs : List String) (mods : List VpiModule) (m : VpiModule) (hm : m ∈ mods) :
    strContains (write_makefile toplevel vp g pa vs mods) (vpiSection m) = true ∧
    (strContains (write_makefile "top" [] [] [] []
        [⟨"foo", ["a.c", "b.cpp"], ["m"], ["/x"]⟩]) "foo_OBJS := a.o b.o\n" = true ∧
      strContains (write_makefile "top" [] [] [] []
        [⟨"foo", ["a.c", "b.cpp"], ["m"], ["/x"]⟩]) "foo_LIBS := -lm\n" = true ∧
      strContains (write_makefile "top" [] [] [] []
        [⟨"foo", ["a.c", "b.cpp"], ["m"], ["/x"]⟩]) "foo_INCS := $(INCS) -I/x\n" = true ∧
      strContains (write_makefile "top" [] [] [] []
        [⟨"foo", ["a.c", "b.cpp"], ["m"], ["/x"]⟩]) "\nfoo: $(foo_OBJS)\n" = true ∧
      strContains (write_makefile "top" [] [] [] []
        [⟨"foo", ["a.c", "b.cpp"], ["m"], ["/x"]⟩]) "clean_foo:\n\t$(RM) $(foo_OBJS) foo\n" = true) := by
  constructor
  · have hw : write_makefile toplevel vp g pa vs mods =
        MAKE_HEADER toplevel (joinSp (mods.map (fun x => x.name)))
          (joinSp (vp.map kvStr ++ g.map kvStr)) (joinSp (pa.map kvStr))
          (joinSp vs)
          (joinSp ((mods.map (fun x => x.name)).map (fun n => "clean_" ++ n))) ++
        strConcat (mods.map vpiSection) := rfl
    rw [hw]
    exact strContains_append_right _ _ _
      (strContains_strConcat _ _ (List.mem_map_of_mem vpiSection hm))
  · refine ⟨?_, ?_, ?_, ?_, ?_⟩ <;> decide

end EdalizeModelsim

namespace EdalizeModelsim

/-- Witness for C2 at a concrete common-mode input. -/
theorem C2_common_aggregate_witness :
    (⟨"common", [], [], []⟩ : ToolOptions).compilation_mode = "common" ∧
    ((write_build_rtl ⟨"common", [], [], []⟩ []
        [⟨"a.sv", "systemVerilogSource", ""⟩, ⟨"c.vhd", "vhdlSource", ""⟩] []).script.countP isAggL = 1 ∧
      (write_build_rtl ⟨"common", [], [], []⟩ []
        [⟨"a.sv", "systemVerilogSource", ""⟩, ⟨"c.vhd", "vhdlSource", ""⟩] []).script.getLast? =
        some (TclLine.commonVlog
          (aggArgs [] (defineFlags []) (incFlags [])
            (([⟨"a.sv", "systemVerilogSource", ""⟩, ⟨"c.vhd", "vhdlSource", ""⟩] : List SourceFile).filter
              (fun f => isVlogT f.file_type)))
          ((([⟨"a.sv", "systemVerilogSource", ""⟩, ⟨"c.vhd", "vhdlSource", ""⟩] : List SourceFile).filter
            (fun f => isVlogT f.file_type)).map (fun f => slashify f.name))) ∧
      (write_build_rtl ⟨"common", [], [], []⟩ []
        [⟨"a.sv", "systemVerilogSource", ""⟩, ⟨"c.vhd", "vhdlSource", ""⟩] []).script.countP isVlogLine = 0 ∧
      (write_build_rtl ⟨"common", [], [], []⟩ []
        [⟨"a.sv", "systemVerilogSource", ""⟩, ⟨"c.vhd", "vhdlSource", ""⟩] []).script.countP isVcomLine =
        ([⟨"a.sv", "systemVerilogSource", ""⟩, ⟨"c.vhd", "vhdlSource", ""⟩] : List SourceFile).countP
          (fun f => !isVlogT f.file_type && isVhdlT f.file_type)) :=
  ⟨rfl, C2_common_aggregate ⟨"common", [], [], []⟩ []
    [⟨"a.sv", "systemVerilogSource", ""⟩, ⟨"c.vhd", "vhdlSource", ""⟩] [] rfl⟩

/-- Witness for C3 at a concrete input: two files sharing library libx. -/
theorem C3_vlib_once_before_use_witness :
    "libx" ∈ (([⟨"a.v", "verilogSource", "libx"⟩, ⟨"b.v", "verilogSource", "libx"⟩] : List SourceFile).map
      (fun f => effName f.logical_name)) ∧
    ((∃ A B, (write_build_rtl ⟨"sep", [], [], []⟩ []
        [⟨"a.v", "verilogSource", "libx"⟩, ⟨"b.v", "verilogSource", "libx"⟩] []).script =
          A ++ TclLine.vlib "libx" :: B ∧
        (∀ x ∈ A, isVlibFor "libx" x = false ∧ refsWork "libx" x = false) ∧
        (∀ x ∈ B, isVlibFor "libx" x = false)) ∧
      (write_build_rtl ⟨"sep", [], [], []⟩ []
        [⟨"a.v", "verilogSource", "libx"⟩, ⟨"b.v", "verilogSource", "libx"⟩] []).script.filterMap vlibName? =
        (([⟨"a.v", "verilogSource", "libx"⟩, ⟨"b.v", "verilogSource", "libx"⟩] : List SourceFile).map
          (fun f => effName f.logical_name)).foldl libsStep []) :=
  ⟨by decide, C3_vlib_once_before_use ⟨"sep", [], [], []⟩ []
    [⟨"a.v", "verilogSource", "libx"⟩, ⟨"b.v", "verilogSource", "libx"⟩] [] "libx" (by decide)⟩

/-- Witness for C4 (amended) at a concrete input: one user file, one
unrecognized file. -/
theorem C4_skip_and_warn_witness :
    (write_build_rtl ⟨"sep", [], [], []⟩ []
      [⟨"u.bin", "user", ""⟩, ⟨"x.q", "weird", "l"⟩] []).warnings =
      ([⟨"u.bin", "user", ""⟩, ⟨"x.q", "weird", "l"⟩] : List SourceFile).filterMap warnOf ∧
    (∀ f : SourceFile, f.file_type = "user" → warnOf f = none) ∧
    (∀ f : SourceFile, warnOf f = none ∨ warnOf f = some (f.name, f.file_type)) ∧
    ((∀ f ∈ ([⟨"u.bin", "user", ""⟩, ⟨"x.q", "weird", "l"⟩] : List SourceFile), noScriptCmd f = true) →
      (write_build_rtl ⟨"sep", [], [], []⟩ []
        [⟨"u.bin", "user", ""⟩, ⟨"x.q", "weird", "l"⟩] []).tcl_main = [] ∧
      (write_build_rtl ⟨"sep", [], [], []⟩ []
        [⟨"u.bin", "user", ""⟩, ⟨"x.q", "weird", "l"⟩] []).script.countP isCompileL = 0) :=
  C4_skip_and_warn ⟨"sep", [], [], []⟩ [] [⟨"u.bin", "user", ""⟩, ⟨"x.q", "weird", "l"⟩] []

/-- Witness for C5 at a concrete input. -/
theorem C5_separate_per_file_witness :
    (⟨"sep", [], [], []⟩ : ToolOptions).compilation_mode ≠ "common" ∧
    ((write_build_rtl ⟨"sep", [], [], []⟩ []
        [⟨"a.v", "verilogSource", ""⟩, ⟨"c.vhd", "vhdlSource", "lib"⟩, ⟨"u.bin", "user", ""⟩] []).script.filterMap
        perCompile? =
        ([⟨"a.v", "verilogSource", ""⟩, ⟨"c.vhd", "vhdlSource", "lib"⟩, ⟨"u.bin", "user", ""⟩] : List SourceFile).filterMap
          (expectedCompile [] [] (defineFlags []) (incFlags [])) ∧
      ((write_build_rtl ⟨"sep", [], [], []⟩ []
        [⟨"a.v", "verilogSource", ""⟩, ⟨"c.vhd", "vhdlSource", "lib"⟩, ⟨"u.bin", "user", ""⟩] []).script.filterMap
        perCompile?).length =
        ([⟨"a.v", "verilogSource", ""⟩, ⟨"c.vhd", "vhdlSource", "lib"⟩, ⟨"u.bin", "user", ""⟩] : List SourceFile).countP
          (fun f => isVlogT f.file_type || isVhdlT f.file_type) ∧
      (∀ l ∈ (write_build_rtl ⟨"sep", [], [], []⟩ []
          [⟨"a.v", "verilogSource", ""⟩, ⟨"c.vhd", "vhdlSource", "lib"⟩, ⟨"u.bin", "user", ""⟩] []).script,
        ∀ c a w p, l = TclLine.compile c a w p →
        renderLine l = c ++ " " ++ joinSp (a ++ ["-quiet", "-work", w, p]))) :=
  ⟨by decide, C5_separate_per_file ⟨"sep", [], [], []⟩ []
    [⟨"a.v", "verilogSource", ""⟩, ⟨"c.vhd", "vhdlSource", "lib"⟩, ⟨"u.bin", "user", ""⟩] [] (by decide)⟩

/-- Witness for C7 at the concrete module of the claim. -/
theorem C7_vpi_make_sections_witness :
    (⟨"foo", ["a.c", "b.cpp"], ["m"], ["/x"]⟩ : VpiModule) ∈
      ([⟨"foo", ["a.c", "b.cpp"], ["m"], ["/x"]⟩] : List VpiModule) ∧
    (strContains (write_makefile "top" [] [] [] [] [⟨"foo", ["a.c", "b.cpp"], ["m"], ["/x"]⟩])
        (vpiSection ⟨"foo", ["a.c", "b.cpp"], ["m"], ["/x"]⟩) = true ∧
      (strContains (write_makefile "top" [] [] [] []
          [⟨"foo", ["a.c", "b.cpp"], ["m"], ["/x"]⟩]) "foo_OBJS := a.o b.o\n" = true ∧
        strContains (write_makefile "top" [] [] [] []
          [⟨"foo", ["a.c", "b.cpp"], ["m"], ["/x"]⟩]) "foo_LIBS := -lm\n" = true ∧
        strContains (write_makefile "top" [] [] [] []
          [⟨"foo", ["a.c", "b.cpp"], ["m"], ["/x"]⟩]) "foo_INCS := $(INCS) -I/x\n" = true ∧
        strContains (write_makefile "top" [] [] [] []
          [⟨"foo", ["a.c", "b.cpp"], ["m"], ["/x"]⟩]) "\nfoo: $(foo_OBJS)\n" = true ∧
        strContains (write_makefile "top" [] [] [] []
          [⟨"foo", ["a.c", "b.cpp"], ["m"], ["/x"]⟩]) "clean_foo:\n\t$(RM) $(foo_OBJS) foo\n" = true)) :=
  ⟨List.mem_singleton.mpr rfl,
    C7_vpi_make_sections "top" [] [] [] [] [⟨"foo", ["a.c", "b.cpp"], ["m"], ["/x"]⟩]
      ⟨"foo", ["a.c", "b.cpp"], ["m"], ["/x"]⟩ (List.mem_singleton.mpr rfl)⟩

/-- Witness for C8 (amended) at a concrete input. -/
theorem C8_files_out_frame_witness :
    (write_build_rtl ⟨"sep", [], [], []⟩ [] [⟨"a.v", "verilogSource", ""⟩] []).files_out =
      ([⟨"a.v", "verilogSource", ""⟩] : List SourceFile).map applyDefault ∧
    (∀ f : SourceFile, f.logical_name ≠ "" → applyDefault f = f) ∧
    (∀ f : SourceFile, (applyDefault f).name = f.name ∧
      (applyDefault f).file_type = f.file_type ∧
      (applyDefault f).logical_name = effName f.logical_name) :=
  C8_files_out_frame ⟨"sep", [], [], []⟩ [] [⟨"a.v", "verilogSource", ""⟩] []

/-- Witness for C9 at a concrete input: a tclSource file, which produces
no compile command but still declares its library. -/
theorem C9_vlib_for_every_file_witness :
    (⟨"t.tcl", "tclSource", "libz"⟩ : SourceFile) ∈
      ([⟨"t.tcl", "tclSource", "libz"⟩] : List SourceFile) ∧
    (TclLine.vlib (effName "libz") ∈
        (write_build_rtl ⟨"sep", [], [], []⟩ [] [⟨"t.tcl", "tclSource", "libz"⟩] []).script ∧
      (write_build_rtl ⟨"sep", [], [], []⟩ [] [⟨"f.dat", "user", "foo"⟩] []).script =
        [TclLine.vlib "foo"]) :=
  ⟨List.mem_singleton.mpr rfl,
    C9_vlib_for_every_file ⟨"sep", [], [], []⟩ [] [⟨"t.tcl", "tclSource", "libz"⟩] []
      ⟨"t.tcl", "tclSource", "libz"⟩ (List.mem_singleton.mpr rfl)⟩

/-- Witness for C10 at a concrete input with no Verilog file. -/
theorem C10_aggregate_unconditional_witness :
    (⟨"common", [], [], []⟩ : ToolOptions).compilation_mode = "common" ∧
    ((∃ a fl, (write_build_rtl ⟨"common", [], [], []⟩ []
        [⟨"c.vhd", "vhdlSource", ""⟩] []).script.getLast? = some (TclLine.commonVlog a fl)) ∧
      ((∀ f ∈ ([⟨"c.vhd", "vhdlSource", ""⟩] : List SourceFile), isVlogT f.file_type = false) →
        (write_build_rtl ⟨"common", [], [], []⟩ []
          [⟨"c.vhd", "vhdlSource", ""⟩] []).script.getLast? =
          some (TclLine.commonVlog
            ([] ++ defineFlags [] ++ incFlags [] ++ ["-quiet", "-work", "work", "-mfcu"]) []))) :=
  ⟨rfl, C10_aggregate_unconditional ⟨"common", [], [], []⟩ [] [⟨"c.vhd", "vhdlSource", ""⟩] [] rfl⟩

end EdalizeModelsim
